import Mathlib

/-!
Shallow embedding of `process_tracks.py` (media_scripts repository).

Conventions of the embedding:
* Python floats are modelled as `Rat` (the script only performs exact
  field arithmetic: `+`, `-`, `*`, `/` on values read from JSON).
* Python strings are modelled as `List Char` wherever the script
  manipulates them (`split`, `replace`, `float(...)` parsing); JSON
  object keys are Lean `String`s.
* Fallible Python code is modelled with `Except PyErr`; the `PyErr`
  constructors mirror the exception classes CPython would raise
  (`IndexError`, `ValueError`, `ZeroDivisionError`, `KeyError`,
  `TypeError`, `AttributeError`, and `Exception msg` for the script's
  own `raise Exception(...)` calls).
* JSON documents are modelled by the inductive type `J`; Python dict
  update `d[k] = v` is `setKey` (replaces in place, appends when the
  key is new, exactly like insertion-ordered CPython dicts), and
  `d.get(k)` / `d[k]` are modelled with `jLookup`.
* File I/O is factored out: `do_notes` takes the persisted document
  (or `none` when `tracks.json` does not exist) and the list of
  (path, decoded MIDI data) pairs the glob would produce; `do_mappings`
  takes the parsed `tracks.json` and returns the document that would be
  written back.
-/

/-- Exception kinds raised by the modelled Python code. -/
inductive PyErr where
  | indexError
  | valueError
  | zeroDivisionError
  | keyError
  | typeError
  | attributeError
  | exception (msg : String)
deriving DecidableEq

/-- Whether an `Except` computation succeeded. -/
def isOkE : Except PyErr α → Bool
  | .ok _ => true
  | .error _ => false

instance exceptDecEq [DecidableEq ε] [DecidableEq α] : DecidableEq (Except ε α) := fun x y =>
  match x, y with
  | .ok a, .ok b =>
    if h : a = b then isTrue (by rw [h]) else isFalse (by intro hh; cases hh; exact h rfl)
  | .error e, .error f =>
    if h : e = f then isTrue (by rw [h]) else isFalse (by intro hh; cases hh; exact h rfl)
  | .ok _, .error _ => isFalse (by intro hh; cases hh)
  | .error _, .ok _ => isFalse (by intro hh; cases hh)

/-- Auxiliary for `pySplit`: returns the first separator-free chunk and the
remaining chunks. -/
def pySplitAux (sep : Char) : List Char → List Char × List (List Char)
  | [] => ([], [])
  | c :: rest =>
    let r := pySplitAux sep rest
    if c = sep then ([], r.1 :: r.2) else (c :: r.1, r.2)

/-- Python `s.split(sep)` for a single-character separator: always returns a
non-empty list of chunks; `"".split(sep) == [""]`. -/
def pySplit (sep : Char) (s : List Char) : List (List Char) :=
  (pySplitAux sep s).1 :: (pySplitAux sep s).2

/-- Python `lst[-1]` on a list known to be non-empty (with a default that is
never used for the lists `pySplit` produces). -/
def lastD (d : List Char) : List (List Char) → List Char
  | [] => d
  | a :: rest => lastD a rest

/-- Auxiliary for `pyReplace`, structurally recursive on a fuel argument so
that it evaluates inside the kernel.  The pattern searched for is `o :: os`
(hence never empty), mirroring Python's left-to-right non-overlapping
`str.replace`. -/
def pyReplaceAux (o : Char) (os new : List Char) : Nat → List Char → List Char
  | _, [] => []
  | 0, s => s
  | fuel + 1, c :: rest =>
    if (o :: os).isPrefixOf (c :: rest) then
      new ++ pyReplaceAux o os new fuel (rest.drop os.length)
    else
      c :: pyReplaceAux o os new fuel rest

/-- Python `s.replace(old, new)` for the non-empty pattern `o :: os`:
replaces every non-overlapping occurrence, scanning left to right. -/
def pyReplace (o : Char) (os new s : List Char) : List Char :=
  pyReplaceAux o os new s.length s

/-- The value of a decimal digit character, `none` otherwise. -/
def digit? (c : Char) : Option Nat :=
  if '0' ≤ c ∧ c ≤ '9' then some (c.toNat - '0'.toNat) else none

/-- Consume a maximal run of leading decimal digits. -/
def takeDigits : List Char → List Nat × List Char
  | [] => ([], [])
  | c :: rest =>
    match digit? c with
    | some d =>
      let r := takeDigits rest
      (d :: r.1, r.2)
    | none => ([], c :: rest)

/-- Numeric value of a digit run. -/
def digitsVal (ds : List Nat) : Nat := ds.foldl (fun a d => a * 10 + d) 0

/-- Model of CPython `float(s)` restricted to the shapes this script feeds
it: an optional sign followed by decimal digits with at most one decimal
point (at least one digit overall).  Returns `none` exactly where `float`
raises `ValueError` on such inputs. -/
def parseFloat (s : List Char) : Option Rat :=
  let signed : Bool × List Char :=
    match s with
    | '-' :: r => (true, r)
    | '+' :: r => (false, r)
    | _ => (false, s)
  let ipr := takeDigits signed.2
  let mag : Option Rat :=
    match ipr.2 with
    | [] => if ipr.1.isEmpty then none else some (digitsVal ipr.1)
    | '.' :: r =>
      let fpr := takeDigits r
      if fpr.2.isEmpty && !(ipr.1.isEmpty && fpr.1.isEmpty) then
        some ((digitsVal ipr.1 : Rat) + (digitsVal fpr.1 : Rat) / (10 : Rat) ^ fpr.1.length)
      else none
    | _ => none
  match mag with
  | none => none
  | some m => some (if signed.1 then -m else m)

/-- Python `float(parts[i])`: `IndexError` when the field is missing,
`ValueError` when it is not numeric. -/
def floatAt (parts : List (List Char)) (i : Nat) : Except PyErr Rat :=
  match parts[i]? with
  | none => .error .indexError
  | some s =>
    match parseFloat s with
    | none => .error .valueError
    | some v => .ok v

/-- Model of `bbt_to_second(bpm, ppq, bbt, time_signature)`
(src/process_tracks.py lines 85-113): split `bbt` on `:` and parse the
first three fields as bar, beat, tick; split the time signature on `:` and
parse numerator and denominator; then
`past_beats = (bar - 1) * numerator + (beat - 1) + tick / ppq` and
`past_seconds = past_beats * (60 / bpm)`.  The denominator is parsed but
unused.  Division by `ppq = 0` or `bpm = 0` raises `ZeroDivisionError`;
nothing rejects negative `ppq` or `bpm`, and fields beyond the consumed
ones are ignored. -/
def bbt_to_second (bpm ppq : Rat) (bbt time_signature : List Char) : Except PyErr Rat :=
  match floatAt (pySplit ':' bbt) 0 with
  | .error e => .error e
  | .ok bar =>
  match floatAt (pySplit ':' bbt) 1 with
  | .error e => .error e
  | .ok beat =>
  match floatAt (pySplit ':' bbt) 2 with
  | .error e => .error e
  | .ok tick =>
  match floatAt (pySplit ':' time_signature) 0 with
  | .error e => .error e
  | .ok numerator =>
  match floatAt (pySplit ':' time_signature) 1 with
  | .error e => .error e
  | .ok _denominator =>
  if ppq = 0 then .error .zeroDivisionError
  else if bpm = 0 then .error .zeroDivisionError
  else .ok (((bar - 1) * numerator + (beat - 1) + tick / ppq) * (60 / bpm))

/-! JSON documents and Python dict operations. -/

/-- JSON-like values, as produced by the `read_json_data` collaborator. -/
inductive J where
  | null : J
  | num : Rat → J
  | str : List Char → J
  | arr : List J → J
  | obj : List (String × J) → J

/-- Python dict `d.get(k)` / membership: first binding for `k`, if any
(CPython dicts have unique keys; documents built by the script keep that
invariant). -/
def jLookup (k : String) : List (String × J) → Option J
  | [] => none
  | (k', v) :: rest => if k' = k then some v else jLookup k rest

/-- Python dict assignment `d[k] = v`: replaces the binding in place when
the key exists (keeping its position, like insertion-ordered CPython
dicts), otherwise appends it at the end. -/
def setKey : List (String × J) → String → J → List (String × J)
  | [], k, v => [(k, v)]
  | (k', v') :: rest, k, v =>
    if k' = k then (k, v) :: rest else (k', v') :: setKey rest k v

/-- Python truthiness of a JSON value (`if loops_data:`): `None`, `0`,
`""`, `[]` and the empty dict are falsy. -/
def J.truthy : J → Bool
  | .null => false
  | .num q => !decide (q = 0)
  | .str s => !s.isEmpty
  | .arr xs => !xs.isEmpty
  | .obj fs => !fs.isEmpty

/-! The MIDI collaborator's data (pretty_midi), and note extraction. -/

/-- A note as exposed by the MIDI-decoding collaborator: `start` and `end`
times in seconds (`end` is a Lean keyword, so the field is `end_`). -/
structure MidiNote where
  start : Rat
  end_ : Rat
deriving DecidableEq

/-- An instrument as exposed by the MIDI-decoding collaborator. -/
structure Instrument where
  name : String
  notes : List MidiNote
deriving DecidableEq

/-- A decoded MIDI file: `pretty_midi.PrettyMIDI(path)`. -/
structure MidiData where
  instruments : List Instrument
deriving DecidableEq

/-- One entry of the notes list built by `get_instrument_info`. -/
structure NoteInfo where
  index : Nat
  start : Rat
  duration : Rat
deriving DecidableEq

/-- The dictionary returned by `get_instrument_info`. -/
structure InstrumentInfo where
  name : String
  notes : List NoteInfo
deriving DecidableEq

/-- The message of the `raise Exception` for an instrument count other
than 1 (src/process_tracks.py lines 23-27). -/
def instrumentCountMsg (n : Nat) : String :=
  "Number of instruments is " ++ toString n ++ " which does not equal to 1"

/-- The message of the `raise Exception` for an empty note list
(src/process_tracks.py lines 32-35). -/
def emptyTrackMsg : String := "Number of notes is less than or equivalent to 0"

/-- The `for idx, note in enumerate(notes)` loop of `get_instrument_info`
(src/process_tracks.py lines 39-46): emit
`{index: idx, start: note.start - offset, duration: note.end - note.start}`
for each note in original order, `idx` counting from the given seed. -/
def notesInfoFrom (offset : Rat) : Nat → List MidiNote → List NoteInfo
  | _, [] => []
  | idx, n :: rest =>
    { index := idx, start := n.start - offset, duration := n.end_ - n.start }
      :: notesInfoFrom offset (idx + 1) rest

/-- Model of `get_instrument_info(path)` (src/process_tracks.py lines
8-51), applied to the already-decoded MIDI data: requires exactly one
instrument, a non-empty note list, and normalizes note starts against the
first note's start time. -/
def get_instrument_info (mid : MidiData) : Except PyErr InstrumentInfo :=
  if mid.instruments.length ≠ 1 then
    .error (.exception (instrumentCountMsg mid.instruments.length))
  else
    match mid.instruments.head? with
    | none => .error .indexError
    | some instrument =>
      match instrument.notes with
      | [] => .error (.exception emptyTrackMsg)
      | n0 :: ns =>
        .ok { name := instrument.name, notes := notesInfoFrom n0.start 0 (n0 :: ns) }

/-! The notes workflow (`do_notes`). -/

/-- `path.split("\\")[-1].replace(".mid", "")` (src/process_tracks.py
line 76): the instrument name is the last backslash-separated component of
the path with every occurrence of ".mid" deleted. -/
def instrumentNameOf (path : List Char) : List Char :=
  pyReplace '.' "mid".data [] (lastD [] (pySplit '\\' path))

/-- The claim's reading of the instrument name: the bare filename (last
path component for either separator) with a trailing ".mid" extension
stripped.  Used only to compare against `instrumentNameOf`. -/
def specStem (path : List Char) : List Char :=
  let base := lastD [] (pySplit '/' (lastD [] (pySplit '\\' path)))
  if ".mid".data.isSuffixOf base then base.take (base.length - 4) else base

/-- JSON shape of one note entry, as `write_json_data` would serialize it. -/
def noteInfoToJ (n : NoteInfo) : J :=
  .obj [("index", .num n.index), ("start", .num n.start), ("duration", .num n.duration)]

/-- JSON shape of `get_instrument_info`'s return value. -/
def instrumentInfoToJ (i : InstrumentInfo) : J :=
  .obj [("name", .str i.name.data), ("notes", .arr (i.notes.map noteInfoToJ))]

/-- The `for path in glob.glob(...)` loop of `do_notes`
(src/process_tracks.py lines 75-79): for each source file, extract the
instrument info and assign `instruments_json[instrument_name] = info`.
A non-dict `instruments` value fails on the assignment (TypeError), after
the extraction, exactly as CPython would. -/
def notesFold : List (List Char × MidiData) → J → Except PyErr J
  | [], instruments_json => .ok instruments_json
  | (path, md) :: rest, instruments_json =>
    match get_instrument_info md with
    | .error e => .error e
    | .ok info =>
      match instruments_json with
      | .obj fs =>
        notesFold rest (.obj (setKey fs (String.mk (instrumentNameOf path)) (instrumentInfoToJ info)))
      | _ => .error .typeError

/-- Model of `do_notes(in_dir)` (src/process_tracks.py lines 53-83).
`persisted` is the parsed `tracks.json` when the file exists (`none`
otherwise); `files` are the globbed score files with their decoded MIDI
data.  Returns the document that `write_json_data` would persist.  Note
that the script initializes `{"instruments": {}}` only when the file does
not exist; an existing document without the key hits
`out_json["instruments"]` and raises `KeyError`. -/
def do_notes (persisted : Option J) (files : List (List Char × MidiData)) : Except PyErr J :=
  let out_json : J :=
    match persisted with
    | some j => j
    | none => .obj [("instruments", .obj [])]
  match out_json with
  | .obj fs =>
    match jLookup "instruments" fs with
    | none => .error .keyError
    | some instruments_json =>
      match notesFold files instruments_json with
      | .error e => .error e
      | .ok final => .ok (.obj (setKey fs "instruments" final))
  | _ => .error .typeError

/-! The mappings workflow (`do_mappings`). -/

/-- The default bbt string used for missing `between_first_bbt` /
`between_second_bbt` fields (src/process_tracks.py lines 136-141). -/
def defaultBBT : List Char := "1:01:00".data

/-- `loops_data.get(key, "1:01:00")`, then the `.split(":")` inside
`bbt_to_second` requires the value to be a string (AttributeError
otherwise). -/
def getDefStr (lfs : List (String × J)) (k : String) : Except PyErr (List Char) :=
  match (jLookup k lfs).getD (.str defaultBBT) with
  | .str s => .ok s
  | _ => .error .attributeError

/-- `mapME f l` runs the fallible `f` left to right, stopping at the first
exception (a Python for-loop over `l`). -/
def mapME (f : α → Except PyErr β) : List α → Except PyErr (List β)
  | [] => .ok []
  | a :: rest =>
    match f a with
    | .error e => .error e
    | .ok b =>
      match mapME f rest with
      | .error e => .error e
      | .ok bs => .ok (b :: bs)

/-- The `for loop in loops_data["loops"]` body (src/process_tracks.py
lines 144-148): `loop["start"] = bbt_to_second(bpm, ppq, loop["start_bbt"],
time_signature)`; every other field of the loop dict is untouched. -/
def processLoop (bpm ppq : Rat) (ts : List Char) (loop : J) : Except PyErr J :=
  match loop with
  | .obj fs =>
    match jLookup "start_bbt" fs with
    | none => .error .keyError
    | some (.str sb) =>
      match bbt_to_second bpm ppq sb ts with
      | .error e => .error e
      | .ok s => .ok (.obj (setKey fs "start" (.num s)))
    | some _ => .error .attributeError
  | _ => .error .typeError

/-- The `for mapping in mappings` body (src/process_tracks.py lines
133-148): skip when `loops_data` is absent or falsy; otherwise compute
`between` from the two (defaulted) bbt strings and convert every loop's
`start_bbt`.  Note `loops_data["loops"]` is read after `between` is
assigned, hence the lookup in `lfs1`. -/
def processMapping (bpm ppq : Rat) (ts : List Char) (mapping : J) : Except PyErr J :=
  match mapping with
  | .obj mfs =>
    match jLookup "loops_data" mfs with
    | none => .ok (.obj mfs)
    | some loops_data =>
      if loops_data.truthy then
        match loops_data with
        | .obj lfs =>
          match getDefStr lfs "between_first_bbt" with
          | .error e => .error e
          | .ok s1 =>
          match bbt_to_second bpm ppq s1 ts with
          | .error e => .error e
          | .ok between_first_s =>
          match getDefStr lfs "between_second_bbt" with
          | .error e => .error e
          | .ok s2 =>
          match bbt_to_second bpm ppq s2 ts with
          | .error e => .error e
          | .ok between_second_s =>
          let lfs1 := setKey lfs "between" (.num (between_second_s - between_first_s))
          match jLookup "loops" lfs1 with
          | none => .error .keyError
          | some (.arr loops) =>
            match mapME (processLoop bpm ppq ts) loops with
            | .error e => .error e
            | .ok loops2 => .ok (.obj (setKey mfs "loops_data" (.obj (setKey lfs1 "loops" (.arr loops2)))))
          | some _ => .error .typeError
        | _ => .error .attributeError
      else .ok (.obj mfs)
  | _ => .error .attributeError

/-- Model of `do_mappings(in_dir)` (src/process_tracks.py lines 115-151),
applied to the parsed `tracks.json`: requires `tracks_data` with `bpm`,
`ppq`, `time_signature` and `mappings`, rewrites each mapping with
`processMapping`, and returns the document that would be written back. -/
def do_mappings (tracks_json : J) : Except PyErr J :=
  match tracks_json with
  | .obj tfs =>
    match jLookup "tracks_data" tfs with
    | none => .error .keyError
    | some (.obj dfs) =>
      match jLookup "bpm" dfs with
      | none => .error .keyError
      | some (.num bpm) =>
        match jLookup "ppq" dfs with
        | none => .error .keyError
        | some (.num ppq) =>
          match jLookup "time_signature" dfs with
          | none => .error .keyError
          | some (.str ts) =>
            match jLookup "mappings" dfs with
            | none => .error .keyError
            | some (.arr mappings) =>
              match mapME (processMapping bpm ppq ts) mappings with
              | .error e => .error e
              | .ok mappings2 =>
                .ok (.obj (setKey tfs "tracks_data" (.obj (setKey dfs "mappings" (.arr mappings2)))))
            | some _ => .error .typeError
          | some _ => .error .typeError
        | some _ => .error .typeError
      | some _ => .error .typeError
    | some _ => .error .typeError
  | _ => .error .typeError

/-! Claim-side (spec-worded) descriptions of the mapping rewrite, used to
state C2: the structural rewrite the spec describes, with the converted
seconds taken from the Time Converter. -/

/-- The seconds value of a bbt string wherever the conversion succeeds
(only ever used under that hypothesis). -/
def secondsOf (bpm ppq : Rat) (bbt ts : List Char) : Rat :=
  ((bbt_to_second bpm ppq bbt ts).toOption).getD 0

/-- The string content of an optional bbt field, with the documented
default for an absent field. -/
def strOrD (v : Option J) : List Char :=
  match v.getD (.str defaultBBT) with
  | .str s => s
  | _ => []

/-- Spec-worded per-loop rewrite: set `loop.start` from `loop.start_bbt`,
keep everything else. -/
def claimLoopRewrite (bpm ppq : Rat) (ts : List Char) (l : J) : J :=
  match l with
  | .obj fs =>
    match jLookup "start_bbt" fs with
    | some (.str sb) => .obj (setKey fs "start" (.num (secondsOf bpm ppq sb ts)))
    | _ => l
  | _ => l

/-- Spec-worded per-mapping rewrite: set `loops_data.between` to the
difference of the two (defaulted) converted bbt fields and rewrite every
loop; a mapping without `loops_data` is returned unchanged. -/
def claimMappingRewrite (bpm ppq : Rat) (ts : List Char) (m : J) : J :=
  match m with
  | .obj mfs =>
    match jLookup "loops_data" mfs with
    | some (.obj lfs) =>
      let v1 := secondsOf bpm ppq (strOrD (jLookup "between_first_bbt" lfs)) ts
      let v2 := secondsOf bpm ppq (strOrD (jLookup "between_second_bbt" lfs)) ts
      let lfs1 := setKey lfs "between" (.num (v2 - v1))
      match jLookup "loops" lfs1 with
      | some (.arr loops) =>
        .obj (setKey mfs "loops_data" (.obj (setKey lfs1 "loops" (.arr (loops.map (claimLoopRewrite bpm ppq ts))))))
      | _ => m
    | _ => m
  | _ => m

/-- Well-formedness of one loop entry for the normalization pass: a dict
with a string `start_bbt` whose conversion succeeds. -/
def loopWF (bpm ppq : Rat) (ts : List Char) (l : J) : Bool :=
  match l with
  | .obj fs =>
    match jLookup "start_bbt" fs with
    | some (.str sb) => isOkE (bbt_to_second bpm ppq sb ts)
    | _ => false
  | _ => false

/-- Well-formedness of one optional between-bbt field: absent, or a string
whose conversion succeeds (the default also has to convert). -/
def betweenFieldWF (bpm ppq : Rat) (ts : List Char) (lfs : List (String × J)) (k : String) : Bool :=
  match (jLookup k lfs).getD (.str defaultBBT) with
  | .str s => isOkE (bbt_to_second bpm ppq s ts)
  | _ => false

/-- Well-formedness of one mapping for the normalization pass: either no
`loops_data` key, or a `loops_data` dict whose between fields convert and
whose `loops` is an array of well-formed loops. -/
def mappingWF (bpm ppq : Rat) (ts : List Char) (m : J) : Bool :=
  match m with
  | .obj mfs =>
    match jLookup "loops_data" mfs with
    | none => true
    | some (.obj lfs) =>
      betweenFieldWF bpm ppq ts lfs "between_first_bbt" &&
      betweenFieldWF bpm ppq ts lfs "between_second_bbt" &&
      (match jLookup "loops" lfs with
       | some (.arr loops) => loops.all (loopWF bpm ppq ts)
       | _ => false)
    | some _ => false
  | _ => false

/-! Basic lemmas about the embedded dict operations. -/

theorem isOkE_iff_exists {x : Except PyErr α} : isOkE x = true ↔ ∃ a, x = .ok a := by
  cases x <;> simp [isOkE]

theorem jLookup_setKey_self (fs : List (String × J)) (k : String) (v : J) :
    jLookup k (setKey fs k v) = some v := by
  induction fs with
  | nil => simp [setKey, jLookup]
  | cons p rest ih =>
    obtain ⟨k', v'⟩ := p
    by_cases h : k' = k
    · subst h; simp [setKey, jLookup]
    · simp [setKey, jLookup, h, ih]

theorem jLookup_setKey_ne (fs : List (String × J)) (k k' : String) (v : J) (h : k' ≠ k) :
    jLookup k (setKey fs k' v) = jLookup k fs := by
  induction fs with
  | nil => simp [setKey, jLookup, h]
  | cons p rest ih =>
    obtain ⟨k'', v''⟩ := p
    by_cases h2 : k'' = k'
    · subst h2; simp [setKey, jLookup, h]
    · by_cases h3 : k'' = k
      · subst h3; simp [setKey, jLookup, h2]
      · simp [setKey, jLookup, h2, h3, ih]

theorem setKey_of_lookup_eq (fs : List (String × J)) (k : String) (v : J)
    (h : jLookup k fs = some v) : setKey fs k v = fs := by
  induction fs with
  | nil => simp [jLookup] at h
  | cons p rest ih =>
    obtain ⟨k', v'⟩ := p
    by_cases h2 : k' = k
    · subst h2
      simp [jLookup] at h
      simp [setKey, h]
    · simp [jLookup, h2] at h
      simp [setKey, h2, ih h]

theorem setKey_setKey_same (fs : List (String × J)) (k : String) (v : J) :
    setKey (setKey fs k v) k v = setKey fs k v :=
  setKey_of_lookup_eq _ _ _ (jLookup_setKey_self fs k v)

theorem setKey_ne_nil (fs : List (String × J)) (k : String) (v : J) : setKey fs k v ≠ [] := by
  cases fs with
  | nil => simp [setKey]
  | cons p rest =>
    obtain ⟨k', v'⟩ := p
    by_cases h : k' = k <;> simp [setKey, h]

theorem jLookup_ne_nil {fs : List (String × J)} {k : String} {v : J}
    (h : jLookup k fs = some v) : fs ≠ [] := by
  intro hh; subst hh; simp [jLookup] at h

theorem mapME_ok_of_forall {f : α → Except PyErr β} {g : α → β} :
    ∀ l : List α, (∀ a ∈ l, f a = .ok (g a)) → mapME f l = .ok (l.map g) := by
  intro l
  induction l with
  | nil => intro _; simp [mapME]
  | cons a rest ih =>
    intro h
    have ha := h a (List.mem_cons_self a rest)
    have hrest := ih (fun x hx => h x (List.mem_cons_of_mem a hx))
    simp [mapME, ha, hrest]

theorem mapME_idem {f : J → Except PyErr J}
    (hf : ∀ a b, f a = .ok b → f b = .ok b) :
    ∀ l l' : List J, mapME f l = .ok l' → mapME f l' = .ok l' := by
  intro l
  induction l with
  | nil =>
    intro l' h
    simp [mapME] at h
    subst h; simp [mapME]
  | cons a rest ih =>
    intro l' h
    simp only [mapME] at h
    cases ha : f a with
    | error e => rw [ha] at h; cases h
    | ok b =>
      rw [ha] at h
      cases hrest : mapME f rest with
      | error e => rw [hrest] at h; cases h
      | ok bs =>
        rw [hrest] at h
        cases h
        simp only [mapME, hf a b ha, ih bs hrest]

/-! Lemmas about `notesInfoFrom`. -/

theorem notesInfoFrom_length (offset : Rat) :
    ∀ (l : List MidiNote) (k : Nat), (notesInfoFrom offset k l).length = l.length := by
  intro l
  induction l with
  | nil => intro k; simp [notesInfoFrom]
  | cons n rest ih => intro k; simp [notesInfoFrom, ih]

theorem notesInfoFrom_get (offset : Rat) :
    ∀ (l : List MidiNote) (k i : Nat) (hi : i < (notesInfoFrom offset k l).length)
      (hj : i < l.length),
      (notesInfoFrom offset k l).get ⟨i, hi⟩ =
        { index := k + i, start := (l.get ⟨i, hj⟩).start - offset,
          duration := (l.get ⟨i, hj⟩).end_ - (l.get ⟨i, hj⟩).start } := by
  intro l
  induction l with
  | nil => intro k i hi hj; simp at hj
  | cons n rest ih =>
    intro k i hi hj
    cases i with
    | zero => simp [notesInfoFrom]
    | succ j =>
      have hi' : j < (notesInfoFrom offset (k + 1) rest).length := by
        simpa [notesInfoFrom] using hi
      have hj' : j < rest.length := by simpa using hj
      have := ih (k + 1) j hi' hj'
      simp only [notesInfoFrom, List.get_cons_succ, this]
      congr 1
      omega

/-- C1: for every bpm > 0, integer ppq > 0, well-formed bbt string
"bar:beat:tick" and time-signature string "numerator:denominator",
`bbt_to_second` returns `((bar-1)*numerator + (beat-1) + tick/ppq) * (60/bpm)`;
the denominator has no effect, so two calls differing only in the
denominator return the same value. -/
theorem C1_bbt_to_second_formula (bpm : Rat) (ppq : Nat) (bbt ts ts2 : List Char)
    (bar beat tick numerator den den2 : Rat)
    (hbpm : 0 < bpm) (hppq : 0 < ppq)
    (h0 : floatAt (pySplit ':' bbt) 0 = .ok bar)
    (h1 : floatAt (pySplit ':' bbt) 1 = .ok beat)
    (h2 : floatAt (pySplit ':' bbt) 2 = .ok tick)
    (h3 : floatAt (pySplit ':' ts) 0 = .ok numerator)
    (h4 : floatAt (pySplit ':' ts) 1 = .ok den)
    (h5 : floatAt (pySplit ':' ts2) 0 = .ok numerator)
    (h6 : floatAt (pySplit ':' ts2) 1 = .ok den2) :
    bbt_to_second bpm (ppq : Rat) bbt ts =
      .ok (((bar - 1) * numerator + (beat - 1) + tick / (ppq : Rat)) * (60 / bpm)) ∧
    bbt_to_second bpm (ppq : Rat) bbt ts2 = bbt_to_second bpm (ppq : Rat) bbt ts := by
  have hppqQ : ((ppq : Rat)) ≠ 0 := by
    have : (0 : Rat) < (ppq : Rat) := by exact_mod_cast hppq
    exact this.ne'
  have hbpm' : bpm ≠ 0 := hbpm.ne'
  constructor
  · simp [bbt_to_second, h0, h1, h2, h3, h4, hppqQ, hbpm']
  · simp [bbt_to_second, h0, h1, h2, h3, h4, h5, h6, hppqQ, hbpm']

theorem C1_witness :
    (0 : Rat) < 120 ∧ 0 < 96 ∧
    floatAt (pySplit ':' "2:01:00".data) 0 = .ok 2 ∧
    bbt_to_second 120 ((96 : Nat) : Rat) "2:01:00".data "4:4".data =
      .ok (((2 - 1) * 4 + (1 - 1) + 0 / ((96 : Nat) : Rat)) * (60 / 120)) ∧
    bbt_to_second 120 ((96 : Nat) : Rat) "2:01:00".data "4:8".data =
      bbt_to_second 120 ((96 : Nat) : Rat) "2:01:00".data "4:4".data := by
  have h0 : floatAt (pySplit ':' "2:01:00".data) 0 = .ok 2 := by
    simp [floatAt, pySplit, pySplitAux, parseFloat, takeDigits, digit?, digitsVal]
  have h1 : floatAt (pySplit ':' "2:01:00".data) 1 = .ok 1 := by
    simp [floatAt, pySplit, pySplitAux, parseFloat, takeDigits, digit?, digitsVal]
  have h2 : floatAt (pySplit ':' "2:01:00".data) 2 = .ok 0 := by
    simp [floatAt, pySplit, pySplitAux, parseFloat, takeDigits, digit?, digitsVal]
  have h3 : floatAt (pySplit ':' "4:4".data) 0 = .ok 4 := by
    simp [floatAt, pySplit, pySplitAux, parseFloat, takeDigits, digit?, digitsVal]
  have h4 : floatAt (pySplit ':' "4:4".data) 1 = .ok 4 := by
    simp [floatAt, pySplit, pySplitAux, parseFloat, takeDigits, digit?, digitsVal]
  have h5 : floatAt (pySplit ':' "4:8".data) 0 = .ok 4 := by
    simp [floatAt, pySplit, pySplitAux, parseFloat, takeDigits, digit?, digitsVal]
  have h6 : floatAt (pySplit ':' "4:8".data) 1 = .ok 8 := by
    simp [floatAt, pySplit, pySplitAux, parseFloat, takeDigits, digit?, digitsVal]
  have main := C1_bbt_to_second_formula 120 96 "2:01:00".data "4:4".data "4:8".data
    2 1 0 4 4 8 (by norm_num) (by norm_num) h0 h1 h2 h3 h4 h5 h6
  exact ⟨by norm_num, by norm_num, h0, main.1, main.2⟩

/-- C4 as stated is false: the script never validates the sign of `ppq` or
`bpm` (a negative value is accepted and produces a result), and a bbt
string with extra fields is accepted (only the first three are read).
This closed counterexample exhibits both. -/
theorem C4_counterexample :
    (-120 : Rat) ≤ 0 ∧
    bbt_to_second (-120) 96 "1:01:00".data "4:4".data = .ok 0 ∧
    bbt_to_second 120 96 "1:01:00:07".data "4:4".data = .ok 0 := by
  refine ⟨by norm_num, ?_, ?_⟩
  · simp [bbt_to_second, floatAt, pySplit, pySplitAux, parseFloat, takeDigits, digit?, digitsVal]
  · simp [bbt_to_second, floatAt, pySplit, pySplitAux, parseFloat, takeDigits, digit?, digitsVal]

/-- C4 (amended): `bbt_to_second` succeeds exactly when the three consumed
bbt fields and the two time-signature fields parse as numbers and neither
`ppq` nor `bpm` is zero.  Too few fields raise IndexError, non-numeric
fields ValueError, and a zero divisor ZeroDivisionError; negative values
and extra fields are accepted.  The function is pure (the embedding is a
total function of its arguments), so there are no side effects. -/
theorem C4_amended_success_iff (bpm ppq : Rat) (bbt ts : List Char) :
    isOkE (bbt_to_second bpm ppq bbt ts) = true ↔
      (isOkE (floatAt (pySplit ':' bbt) 0) = true ∧
       isOkE (floatAt (pySplit ':' bbt) 1) = true ∧
       isOkE (floatAt (pySplit ':' bbt) 2) = true ∧
       isOkE (floatAt (pySplit ':' ts) 0) = true ∧
       isOkE (floatAt (pySplit ':' ts) 1) = true ∧
       ppq ≠ 0 ∧ bpm ≠ 0) := by
  cases h0 : floatAt (pySplit ':' bbt) 0 with
  | error e => simp [bbt_to_second, isOkE, h0]
  | ok bar =>
  cases h1 : floatAt (pySplit ':' bbt) 1 with
  | error e => simp [bbt_to_second, isOkE, h0, h1]
  | ok beat =>
  cases h2 : floatAt (pySplit ':' bbt) 2 with
  | error e => simp [bbt_to_second, isOkE, h0, h1, h2]
  | ok tick =>
  cases h3 : floatAt (pySplit ':' ts) 0 with
  | error e => simp [bbt_to_second, isOkE, h0, h1, h2, h3]
  | ok numerator =>
  cases h4 : floatAt (pySplit ':' ts) 1 with
  | error e => simp [bbt_to_second, isOkE, h0, h1, h2, h3, h4]
  | ok den =>
  by_cases hp : ppq = 0
  · simp [bbt_to_second, isOkE, h0, h1, h2, h3, h4, hp]
  · by_cases hb : bpm = 0
    · simp [bbt_to_second, isOkE, h0, h1, h2, h3, h4, hp, hb]
    · simp [bbt_to_second, isOkE, h0, h1, h2, h3, h4, hp, hb]

theorem C4_amended_witness :
    isOkE (bbt_to_second 120 (-96) "1:01:00".data "4:4".data) = true := by
  apply (C4_amended_success_iff 120 (-96) "1:01:00".data "4:4".data).mpr
  refine ⟨?_, ?_, ?_, ?_, ?_, by norm_num, by norm_num⟩ <;> decide

/-- C3: for a single instrument with a non-empty ordered note list,
extraction returns a note list whose entry at position i has index i,
start = source[i].start - source[0].start, and
duration = source[i].end - source[i].start; source order is preserved (no
re-sorting), the first emitted start is 0, and negative starts are emitted
without error (no hypothesis below constrains the note times). -/
theorem C3_note_extraction (mid : MidiData) (inst : Instrument) (n0 : MidiNote)
    (ns : List MidiNote)
    (h1 : mid.instruments = [inst]) (h2 : inst.notes = n0 :: ns) :
    get_instrument_info mid =
      .ok { name := inst.name, notes := notesInfoFrom n0.start 0 (n0 :: ns) } ∧
    (notesInfoFrom n0.start 0 (n0 :: ns)).length = (n0 :: ns).length ∧
    (∀ i (hi : i < (notesInfoFrom n0.start 0 (n0 :: ns)).length)
       (hj : i < (n0 :: ns).length),
      ((notesInfoFrom n0.start 0 (n0 :: ns)).get ⟨i, hi⟩).index = i ∧
      ((notesInfoFrom n0.start 0 (n0 :: ns)).get ⟨i, hi⟩).start =
        ((n0 :: ns).get ⟨i, hj⟩).start - n0.start ∧
      ((notesInfoFrom n0.start 0 (n0 :: ns)).get ⟨i, hi⟩).duration =
        ((n0 :: ns).get ⟨i, hj⟩).end_ - ((n0 :: ns).get ⟨i, hj⟩).start) ∧
    (∀ h l, notesInfoFrom n0.start 0 (n0 :: ns) = h :: l → h.start = 0) := by
  refine ⟨?_, notesInfoFrom_length _ _ _, ?_, ?_⟩
  · simp [get_instrument_info, h1, h2]
  · intro i hi hj
    have hg := notesInfoFrom_get n0.start (n0 :: ns) 0 i hi hj
    rw [hg]
    exact ⟨by simp, rfl, rfl⟩
  · intro h l hh
    simp only [notesInfoFrom] at hh
    cases hh
    simp

theorem C3_witness :
    ∃ info, get_instrument_info
        ⟨[⟨"piano", [⟨2, (5:Rat)/2⟩, ⟨(5:Rat)/2, 3⟩, ⟨3, 4⟩]⟩]⟩ = .ok info ∧
      info.notes = notesInfoFrom 2 0 [⟨2, (5:Rat)/2⟩, ⟨(5:Rat)/2, 3⟩, ⟨3, 4⟩] ∧
      (∀ h l, notesInfoFrom (2:Rat) 0 [⟨2, (5:Rat)/2⟩, ⟨(5:Rat)/2, 3⟩, ⟨3, 4⟩] = h :: l →
        h.start = 0) := by
  have main := C3_note_extraction
    ⟨[⟨"piano", [⟨2, (5:Rat)/2⟩, ⟨(5:Rat)/2, 3⟩, ⟨3, 4⟩]⟩]⟩
    ⟨"piano", [⟨2, (5:Rat)/2⟩, ⟨(5:Rat)/2, 3⟩, ⟨3, 4⟩]⟩
    ⟨2, (5:Rat)/2⟩ [⟨(5:Rat)/2, 3⟩, ⟨3, 4⟩] rfl rfl
  exact ⟨_, main.1, rfl, main.2.2.2⟩

/-- C8: extraction fails with the instrument-count `Exception` exactly when
the source has zero or more than one instrument; given exactly one
instrument it fails with the empty-track `Exception` exactly when that
instrument has zero notes; with exactly one instrument and at least one
note it succeeds.  (The script raises generic `Exception`s; the spec's
`InstrumentCountError` / `EmptyTrackError` are identified by their
messages, `instrumentCountMsg` and `emptyTrackMsg`.) -/
theorem C8_error_conditions (mid : MidiData) :
    (get_instrument_info mid =
        .error (.exception (instrumentCountMsg mid.instruments.length)) ↔
      mid.instruments.length ≠ 1) ∧
    (∀ inst, mid.instruments = [inst] →
      (get_instrument_info mid = .error (.exception emptyTrackMsg) ↔ inst.notes = [])) ∧
    (∀ inst, mid.instruments = [inst] → inst.notes ≠ [] →
      ∃ info, get_instrument_info mid = .ok info) := by
  refine ⟨⟨?_, ?_⟩, ?_, ?_⟩
  · intro h
    intro hlen
    obtain ⟨inst, hm⟩ := List.length_eq_one.mp hlen
    rw [hm] at h hlen
    cases hn : inst.notes with
    | nil =>
      simp [get_instrument_info, hm, hn] at h
      exact absurd h (by decide)
    | cons a l =>
      simp [get_instrument_info, hm, hn] at h
  · intro h
    simp [get_instrument_info, h]
  · intro inst hm
    constructor
    · intro h
      cases hn : inst.notes with
      | nil => rfl
      | cons a l => simp [get_instrument_info, hm, hn] at h
    · intro hn
      simp [get_instrument_info, hm, hn]
  · intro inst hm hn
    cases hh : inst.notes with
    | nil => exact absurd hh hn
    | cons a l =>
      refine ⟨{ name := inst.name, notes := notesInfoFrom a.start 0 (a :: l) }, ?_⟩
      simp [get_instrument_info, hm, hh]

theorem C8_witness :
    (get_instrument_info ⟨[]⟩ = .error (.exception (instrumentCountMsg 0))) ∧
    (get_instrument_info ⟨[⟨"a", []⟩, ⟨"b", []⟩]⟩ =
      .error (.exception (instrumentCountMsg 2))) ∧
    (get_instrument_info ⟨[⟨"a", []⟩]⟩ = .error (.exception emptyTrackMsg)) ∧
    (∃ info, get_instrument_info ⟨[⟨"a", [⟨0, 1⟩]⟩]⟩ = .ok info) := by
  refine ⟨?_, ?_, ?_, ?_⟩
  · exact (C8_error_conditions ⟨[]⟩).1.mpr (by decide)
  · exact (C8_error_conditions ⟨[⟨"a", []⟩, ⟨"b", []⟩]⟩).1.mpr (by decide)
  · exact ((C8_error_conditions ⟨[⟨"a", []⟩]⟩).2.1 ⟨"a", []⟩ rfl).mpr rfl
  · exact (C8_error_conditions ⟨[⟨"a", [⟨0, 1⟩]⟩]⟩).2.2 ⟨"a", [⟨0, 1⟩]⟩ rfl (by simp)

/-! Lemmas about `pySplit`, `lastD` and `pyReplace`, used for C6. -/

theorem lastD_indep (l : List (List Char)) (h : l ≠ []) (d d' : List Char) :
    lastD d l = lastD d' l := by
  cases l with
  | nil => exact absurd rfl h
  | cons a rest => rfl

theorem pySplitAux_sep_append (sep : Char) (s : List Char) :
    ∀ dir : List Char,
      (pySplitAux sep (dir ++ sep :: s)).2 ≠ [] ∧
      lastD (pySplitAux sep (dir ++ sep :: s)).1 (pySplitAux sep (dir ++ sep :: s)).2 =
        lastD (pySplitAux sep s).1 (pySplitAux sep s).2 := by
  intro dir
  induction dir with
  | nil => simp [pySplitAux, lastD]
  | cons c dir' ih =>
    by_cases hc : c = sep
    · subst hc
      simp only [List.cons_append, pySplitAux, if_pos rfl]
      exact ⟨by simp, ih.2⟩
    · simp only [List.cons_append, pySplitAux, if_neg hc]
      exact ⟨ih.1, (lastD_indep _ ih.1 _ _).trans ih.2⟩

theorem pySplitAux_no_sep (sep : Char) : ∀ s : List Char, sep ∉ s → pySplitAux sep s = (s, []) := by
  intro s
  induction s with
  | nil => intro _; simp [pySplitAux]
  | cons c rest ih =>
    intro h
    have hc : ¬(c = sep) := fun hh => h (by simp [hh])
    have hrest : sep ∉ rest := fun hh => h (List.mem_cons_of_mem c hh)
    simp [pySplitAux, hc, ih hrest]

theorem lastD_pySplit_component (sep : Char) (dir s : List Char) (hs : sep ∉ s) :
    lastD [] (pySplit sep (dir ++ sep :: s)) = s := by
  have h := pySplitAux_sep_append sep s dir
  simp only [pySplit, lastD]
  rw [h.2, pySplitAux_no_sep sep s hs]
  rfl

theorem pyReplaceAux_strip (o : Char) (os : List Char) :
    ∀ (base : List Char) (fuel : Nat), (base ++ o :: os).length ≤ fuel →
    (∀ i, i < base.length → (o :: os).isPrefixOf ((base ++ o :: os).drop i) = false) →
    pyReplaceAux o os [] fuel (base ++ o :: os) = base := by
  intro base
  induction base with
  | nil =>
    intro fuel hfuel _
    cases fuel with
    | zero => simp at hfuel
    | succ f =>
      simp only [List.nil_append, pyReplaceAux]
      rw [if_pos]
      · rw [List.drop_length]
        cases f <;> rfl
      · exact List.isPrefixOf_iff_prefix.mpr (List.prefix_refl _)
  | cons c b ih =>
    intro fuel hfuel hocc
    cases fuel with
    | zero => simp at hfuel
    | succ f =>
      have h0 : (o :: os).isPrefixOf (((c :: b) ++ o :: os).drop 0) = false :=
        hocc 0 (by simp)
      simp only [List.drop_zero] at h0
      simp only [List.cons_append, pyReplaceAux]
      rw [if_neg]
      · congr 1
        apply ih f
        · simp only [List.length_append, List.length_cons] at hfuel ⊢
          omega
        · intro i hi
          have := hocc (i + 1) (by simpa using Nat.succ_lt_succ hi)
          simpa using this
      · simp only [List.cons_append] at h0
        simp [h0]

/-- C6 as stated is false: on a path with forward-slash separators (what
`glob` produces on POSIX), `path.split("\\")` does not split at all, so the
directory components survive; the stored key is not the bare filename stem.
Concrete input: path "out/scores/drums.mid". -/
theorem C6_counterexample :
    instrumentNameOf "out/scores/drums.mid".data = "out/scores/drums".data ∧
    specStem "out/scores/drums.mid".data = "drums".data ∧
    instrumentNameOf "out/scores/drums.mid".data ≠ specStem "out/scores/drums.mid".data := by
  refine ⟨by decide, by decide, by decide⟩

/-- C6 (amended): the stored key is the last backslash-separated component
of the path with every occurrence of ".mid" deleted.  It equals the bare
filename stem only when the path is backslash-separated (as on Windows)
and ".mid" occurs in the filename solely as the trailing extension; in
particular, for `dir ++ "\\" ++ base ++ ".mid"` with a backslash-free
`base` containing no ".mid" occurrence, the key is exactly `base`. -/
theorem C6_amended (dir base : List Char)
    (hsep : '\\' ∉ base)
    (hocc : ∀ i, i < base.length →
      (".mid".data.isPrefixOf ((base ++ ".mid".data).drop i)) = false) :
    instrumentNameOf (dir ++ '\\' :: (base ++ ".mid".data)) = base := by
  have hs : '\\' ∉ base ++ ".mid".data := by
    intro hmem
    rcases List.mem_append.mp hmem with h | h
    · exact hsep h
    · simp at h
  unfold instrumentNameOf pyReplace
  rw [lastD_pySplit_component '\\' dir _ hs]
  exact pyReplaceAux_strip '.' "mid".data base _ le_rfl hocc

theorem C6_amended_witness :
    instrumentNameOf ("scores".data ++ '\\' :: ("drums".data ++ ".mid".data)) = "drums".data := by
  apply C6_amended
  · decide
  · decide

/-! Lemmas and theorems for the notes workflow store update (C5, C7). -/

theorem notesFold_ok (files : List (List Char × MidiData)) :
    (∀ pm ∈ files, isOkE (get_instrument_info pm.2) = true) →
    ∀ fs0 : List (String × J), ∃ fs1, notesFold files (.obj fs0) = .ok (.obj fs1) := by
  induction files with
  | nil => intro _ fs0; exact ⟨fs0, rfl⟩
  | cons pm rest ih =>
    intro h fs0
    obtain ⟨path, md⟩ := pm
    obtain ⟨info, hinfo⟩ := isOkE_iff_exists.mp (h (path, md) (List.mem_cons_self _ _))
    obtain ⟨fs1, hf⟩ := ih (fun x hx => h x (List.mem_cons_of_mem _ hx))
      (setKey fs0 (String.mk (instrumentNameOf path)) (instrumentInfoToJ info))
    exact ⟨fs1, by simp [notesFold, hinfo, hf]⟩

/-- C5 as stated is false: for a persisted document that lacks the
top-level `instruments` key, `do_notes` does not initialize the key — the
subscript `out_json["instruments"]` raises `KeyError`.  Concrete input:
the empty persisted document `{}` (and no score files). -/
theorem C5_counterexample :
    jLookup "instruments" ([] : List (String × J)) = none ∧
    do_notes (some (.obj [])) [] = .error .keyError := ⟨rfl, rfl⟩

/-- C5 (amended): the `{"instruments": {}}` initialization happens only
when the persisted file is absent, in which case the workflow succeeds
(given extractable score files); a persisted document lacking the
`instruments` key makes the workflow fail with `KeyError` instead of
being initialized. -/
theorem C5_amended (fs : List (String × J)) (files : List (List Char × MidiData))
    (hmiss : jLookup "instruments" fs = none)
    (hwf : ∀ pm ∈ files, isOkE (get_instrument_info pm.2) = true) :
    do_notes (some (.obj fs)) files = .error .keyError ∧
    ∃ ifs, do_notes none files = .ok (.obj [("instruments", .obj ifs)]) := by
  constructor
  · simp [do_notes, hmiss]
  · obtain ⟨fs1, hf⟩ := notesFold_ok files hwf []
    refine ⟨fs1, ?_⟩
    simp [do_notes, jLookup, hf, setKey]

theorem C5_witness :
    do_notes (some (.obj [("foo", .null)])) [] = .error .keyError ∧
    ∃ ifs, do_notes none [] = .ok (.obj [("instruments", .obj ifs)]) :=
  C5_amended [("foo", .null)] [] rfl (by intro pm hpm; cases hpm)

/-- C7: the store update stores the extracted info under the derived key,
overwrites only that key in `instruments`, leaves every other instrument
entry and every other top-level field unchanged, and re-running the same
update on the result yields the identical document. -/
theorem C7_store_update (tfs ifs : List (String × J)) (path : List Char) (md : MidiData)
    (info : InstrumentInfo)
    (h1 : jLookup "instruments" tfs = some (.obj ifs))
    (h2 : get_instrument_info md = .ok info) :
    do_notes (some (.obj tfs)) [(path, md)] =
      .ok (.obj (setKey tfs "instruments"
        (.obj (setKey ifs (String.mk (instrumentNameOf path)) (instrumentInfoToJ info))))) ∧
    jLookup (String.mk (instrumentNameOf path))
        (setKey ifs (String.mk (instrumentNameOf path)) (instrumentInfoToJ info)) =
      some (instrumentInfoToJ info) ∧
    (∀ k', k' ≠ String.mk (instrumentNameOf path) →
      jLookup k' (setKey ifs (String.mk (instrumentNameOf path)) (instrumentInfoToJ info)) =
        jLookup k' ifs) ∧
    (∀ key, key ≠ "instruments" →
      jLookup key (setKey tfs "instruments"
        (.obj (setKey ifs (String.mk (instrumentNameOf path)) (instrumentInfoToJ info)))) =
        jLookup key tfs) ∧
    do_notes (some (.obj (setKey tfs "instruments"
        (.obj (setKey ifs (String.mk (instrumentNameOf path)) (instrumentInfoToJ info))))))
        [(path, md)] =
      .ok (.obj (setKey tfs "instruments"
        (.obj (setKey ifs (String.mk (instrumentNameOf path)) (instrumentInfoToJ info))))) := by
  refine ⟨?_, jLookup_setKey_self _ _ _, ?_, ?_, ?_⟩
  · simp [do_notes, h1, notesFold, h2]
  · intro k' hk
    exact jLookup_setKey_ne _ _ _ _ (Ne.symm hk)
  · intro key hk
    exact jLookup_setKey_ne _ _ _ _ (Ne.symm hk)
  · have hl : jLookup "instruments"
        (setKey tfs "instruments"
          (.obj (setKey ifs (String.mk (instrumentNameOf path)) (instrumentInfoToJ info)))) =
        some (.obj (setKey ifs (String.mk (instrumentNameOf path)) (instrumentInfoToJ info))) :=
      jLookup_setKey_self _ _ _
    simp [do_notes, hl, notesFold, h2, setKey_setKey_same]

theorem C7_witness :
    do_notes (some (.obj [("instruments", .obj [("A", .null)])]))
        [("d\\B.mid".data, ⟨[⟨"B", [⟨1, 2⟩]⟩]⟩)] =
      .ok (.obj (setKey [("instruments", .obj [("A", .null)])] "instruments"
        (.obj (setKey [("A", .null)] (String.mk (instrumentNameOf "d\\B.mid".data))
          (instrumentInfoToJ ⟨"B", [⟨0, 0, 1⟩]⟩))))) ∧
    jLookup "A" (setKey [("A", .null)] (String.mk (instrumentNameOf "d\\B.mid".data))
      (instrumentInfoToJ ⟨"B", [⟨0, 0, 1⟩]⟩)) = jLookup "A" [("A", .null)] := by
  have h2 : get_instrument_info ⟨[⟨"B", [⟨1, 2⟩]⟩]⟩ = .ok ⟨"B", [⟨0, 0, 1⟩]⟩ := by
    simp [get_instrument_info, notesInfoFrom]
    norm_num
  have main := C7_store_update [("instruments", .obj [("A", .null)])] [("A", .null)]
    "d\\B.mid".data ⟨[⟨"B", [⟨1, 2⟩]⟩]⟩ ⟨"B", [⟨0, 0, 1⟩]⟩ rfl h2
  exact ⟨main.1, main.2.2.1 "A" (by decide)⟩

/-! Lemmas and theorems for the mapping normalization (C2, C9, C10). -/

theorem truthy_obj_of_lookup {lfs : List (String × J)} {k : String} {v : J}
    (h : jLookup k lfs = some v) : (J.obj lfs).truthy = true := by
  have hne := jLookup_ne_nil h
  cases lfs with
  | nil => exact absurd rfl hne
  | cons p rest => simp [J.truthy]

theorem betweenFieldWF_inv {bpm ppq : Rat} {ts : List Char} {lfs : List (String × J)}
    {k : String} (h : betweenFieldWF bpm ppq ts lfs k = true) :
    ∃ s v, (jLookup k lfs).getD (.str defaultBBT) = .str s ∧
      bbt_to_second bpm ppq s ts = .ok v := by
  unfold betweenFieldWF at h
  cases hg : (jLookup k lfs).getD (.str defaultBBT) with
  | str s =>
    rw [hg] at h
    obtain ⟨v, hv⟩ := isOkE_iff_exists.mp h
    exact ⟨s, v, rfl, hv⟩
  | null => rw [hg] at h; cases h
  | num q => rw [hg] at h; cases h
  | arr xs => rw [hg] at h; cases h
  | obj fs => rw [hg] at h; cases h

theorem processLoop_eq_of_WF (bpm ppq : Rat) (ts : List Char) (l : J)
    (h : loopWF bpm ppq ts l = true) :
    processLoop bpm ppq ts l = .ok (claimLoopRewrite bpm ppq ts l) := by
  cases l with
  | obj fs =>
    cases hsb : jLookup "start_bbt" fs with
    | none => simp [loopWF, hsb] at h
    | some v =>
      cases v with
      | str sb =>
        rw [loopWF, hsb] at h
        obtain ⟨s, hs⟩ := isOkE_iff_exists.mp h
        simp [processLoop, claimLoopRewrite, hsb, hs, secondsOf, Except.toOption]
      | null => simp [loopWF, hsb] at h
      | num q => simp [loopWF, hsb] at h
      | arr xs => simp [loopWF, hsb] at h
      | obj fs2 => simp [loopWF, hsb] at h
  | null => simp [loopWF] at h
  | num q => simp [loopWF] at h
  | str s => simp [loopWF] at h
  | arr xs => simp [loopWF] at h

theorem processMapping_eq_of_WF (bpm ppq : Rat) (ts : List Char) (m : J)
    (h : mappingWF bpm ppq ts m = true) :
    processMapping bpm ppq ts m = .ok (claimMappingRewrite bpm ppq ts m) := by
  cases m with
  | obj mfs =>
    cases hld : jLookup "loops_data" mfs with
    | none => simp [processMapping, claimMappingRewrite, hld]
    | some ld =>
      cases ld with
      | obj lfs =>
        rw [mappingWF, hld] at h
        simp only [Bool.and_eq_true] at h
        obtain ⟨⟨hb1, hb2⟩, hloops⟩ := h
        obtain ⟨s1, v1, hg1, hv1⟩ := betweenFieldWF_inv hb1
        obtain ⟨s2, v2, hg2, hv2⟩ := betweenFieldWF_inv hb2
        cases hlp : jLookup "loops" lfs with
        | none => rw [hlp] at hloops; cases hloops
        | some lv =>
          cases lv with
          | arr loops =>
            rw [hlp] at hloops
            have htr : (J.obj lfs).truthy = true := truthy_obj_of_lookup hlp
            have hlk : jLookup "loops" (setKey lfs "between" (.num (v2 - v1))) =
                some (.arr loops) := by
              rw [jLookup_setKey_ne _ _ _ _ (by decide)]; exact hlp
            have hmap : mapME (processLoop bpm ppq ts) loops =
                .ok (loops.map (claimLoopRewrite bpm ppq ts)) :=
              mapME_ok_of_forall loops (fun a ha =>
                processLoop_eq_of_WF bpm ppq ts a (List.all_eq_true.mp hloops a ha))
            simp [processMapping, claimMappingRewrite, hld, htr, getDefStr, hg1, hg2,
              hv1, hv2, strOrD, secondsOf, Except.toOption, hlk, hmap]
          | null => rw [hlp] at hloops; cases hloops
          | num q => rw [hlp] at hloops; cases hloops
          | str s => rw [hlp] at hloops; cases hloops
          | obj fs2 => rw [hlp] at hloops; cases hloops
      | null => simp [mappingWF, hld] at h
      | num q => simp [mappingWF, hld] at h
      | str s => simp [mappingWF, hld] at h
      | arr xs => simp [mappingWF, hld] at h
  | null => simp [mappingWF] at h
  | num q => simp [mappingWF] at h
  | str s => simp [mappingWF] at h
  | arr xs => simp [mappingWF] at h

/-- C2: on a well-formed document, normalization rewrites exactly the
mappings that have (truthy) `loops_data`, setting
`between = seconds(between_second_bbt) - seconds(between_first_bbt)` (with
the default "1:01:00" substituted for an absent field, so both absent
yields `between = 0`, and a negative difference is allowed since nothing
validates the sign), and setting `start` on every loop from its
`start_bbt`, which is kept along with all other fields; a mapping with no
`loops_data` key is left entirely unmodified. -/
theorem C2_mapping_normalization (tfs dfs : List (String × J)) (bpm ppq : Rat)
    (ts : List Char) (mappings : List J)
    (h1 : jLookup "tracks_data" tfs = some (.obj dfs))
    (h2 : jLookup "bpm" dfs = some (.num bpm))
    (h3 : jLookup "ppq" dfs = some (.num ppq))
    (h4 : jLookup "time_signature" dfs = some (.str ts))
    (h5 : jLookup "mappings" dfs = some (.arr mappings))
    (h6 : ∀ m ∈ mappings, mappingWF bpm ppq ts m = true) :
    do_mappings (.obj tfs) =
      .ok (.obj (setKey tfs "tracks_data" (.obj (setKey dfs "mappings"
        (.arr (mappings.map (claimMappingRewrite bpm ppq ts))))))) ∧
    (∀ mfs, (J.obj mfs) ∈ mappings → jLookup "loops_data" mfs = none →
      claimMappingRewrite bpm ppq ts (.obj mfs) = .obj mfs) ∧
    (∀ lfs : List (String × J), jLookup "between_first_bbt" lfs = none →
      jLookup "between_second_bbt" lfs = none →
      secondsOf bpm ppq (strOrD (jLookup "between_second_bbt" lfs)) ts -
        secondsOf bpm ppq (strOrD (jLookup "between_first_bbt" lfs)) ts = 0) := by
  refine ⟨?_, ?_, ?_⟩
  · have hmap := mapME_ok_of_forall mappings
      (fun m hm => processMapping_eq_of_WF bpm ppq ts m (h6 m hm))
    simp [do_mappings, h1, h2, h3, h4, h5, hmap]
  · intro mfs _ hnone
    simp [claimMappingRewrite, hnone]
  · intro lfs hn1 hn2
    simp [hn1, hn2]

theorem processLoop_idem (bpm ppq : Rat) (ts : List Char) :
    ∀ l l', processLoop bpm ppq ts l = .ok l' → processLoop bpm ppq ts l' = .ok l' := by
  intro l l' h
  cases l with
  | obj fs =>
    cases hsb : jLookup "start_bbt" fs with
    | none => simp [processLoop, hsb] at h
    | some v =>
      cases v with
      | str sb =>
        cases hbb : bbt_to_second bpm ppq sb ts with
        | error e => simp [processLoop, hsb, hbb] at h
        | ok s =>
          simp only [processLoop, hsb, hbb, Except.ok.injEq] at h
          subst h
          have hsb' : jLookup "start_bbt" (setKey fs "start" (.num s)) = some (.str sb) := by
            rw [jLookup_setKey_ne _ _ _ _ (by decide)]; exact hsb
          simp [processLoop, hsb', hbb, setKey_setKey_same]
      | null => simp [processLoop, hsb] at h
      | num q => simp [processLoop, hsb] at h
      | arr xs => simp [processLoop, hsb] at h
      | obj fs2 => simp [processLoop, hsb] at h
  | null => simp [processLoop] at h
  | num q => simp [processLoop] at h
  | str s => simp [processLoop] at h
  | arr xs => simp [processLoop] at h

theorem processMapping_idem (bpm ppq : Rat) (ts : List Char) :
    ∀ m m', processMapping bpm ppq ts m = .ok m' → processMapping bpm ppq ts m' = .ok m' := by
  intro m m' h
  cases m with
  | obj mfs =>
    cases hld : jLookup "loops_data" mfs with
    | none =>
      simp only [processMapping, hld, Except.ok.injEq] at h
      subst h
      simp [processMapping, hld]
    | some ld =>
      by_cases htr : ld.truthy = true
      · cases ld with
        | obj lfs =>
          cases hg1 : getDefStr lfs "between_first_bbt" with
          | error e => simp [processMapping, hld, htr, hg1] at h
          | ok s1 =>
          cases hv1 : bbt_to_second bpm ppq s1 ts with
          | error e => simp [processMapping, hld, htr, hg1, hv1] at h
          | ok v1 =>
          cases hg2 : getDefStr lfs "between_second_bbt" with
          | error e => simp [processMapping, hld, htr, hg1, hv1, hg2] at h
          | ok s2 =>
          cases hv2 : bbt_to_second bpm ppq s2 ts with
          | error e => simp [processMapping, hld, htr, hg1, hv1, hg2, hv2] at h
          | ok v2 =>
          cases hlp : jLookup "loops" (setKey lfs "between" (.num (v2 - v1))) with
          | none => simp [processMapping, hld, htr, hg1, hv1, hg2, hv2, hlp] at h
          | some lv =>
            cases lv with
            | arr loops =>
              cases hm : mapME (processLoop bpm ppq ts) loops with
              | error e => simp [processMapping, hld, htr, hg1, hv1, hg2, hv2, hlp, hm] at h
              | ok loops2 =>
                simp only [processMapping, hld, htr, if_true, hg1, hv1, hg2, hv2, hlp, hm,
                  Except.ok.injEq] at h
                subst h
                have elp' : jLookup "loops"
                    (setKey (setKey lfs "between" (.num (v2 - v1))) "loops" (.arr loops2)) =
                    some (.arr loops2) := jLookup_setKey_self _ _ _
                have hl1 : jLookup "between"
                    (setKey (setKey lfs "between" (.num (v2 - v1))) "loops" (.arr loops2)) =
                    some (.num (v2 - v1)) := by
                  rw [jLookup_setKey_ne _ _ _ _ (by decide)]
                  exact jLookup_setKey_self _ _ _
                have ebet : setKey
                    (setKey (setKey lfs "between" (.num (v2 - v1))) "loops" (.arr loops2))
                    "between" (.num (v2 - v1)) =
                    setKey (setKey lfs "between" (.num (v2 - v1))) "loops" (.arr loops2) :=
                  setKey_of_lookup_eq _ _ _ hl1
                have einner : setKey
                    (setKey (setKey lfs "between" (.num (v2 - v1))) "loops" (.arr loops2))
                    "loops" (.arr loops2) =
                    setKey (setKey lfs "between" (.num (v2 - v1))) "loops" (.arr loops2) :=
                  setKey_of_lookup_eq _ _ _ elp'
                have e1 : jLookup "loops_data" (setKey mfs "loops_data"
                    (.obj (setKey (setKey lfs "between" (.num (v2 - v1))) "loops"
                      (.arr loops2)))) =
                    some (.obj (setKey (setKey lfs "between" (.num (v2 - v1))) "loops"
                      (.arr loops2))) := jLookup_setKey_self _ _ _
                have etr : (J.obj (setKey (setKey lfs "between" (.num (v2 - v1))) "loops"
                    (.arr loops2))).truthy = true := truthy_obj_of_lookup elp'
                have eb1 : jLookup "between_first_bbt"
                    (setKey (setKey lfs "between" (.num (v2 - v1))) "loops" (.arr loops2)) =
                    jLookup "between_first_bbt" lfs := by
                  rw [jLookup_setKey_ne _ _ _ _ (by decide),
                    jLookup_setKey_ne _ _ _ _ (by decide)]
                have eb2 : jLookup "between_second_bbt"
                    (setKey (setKey lfs "between" (.num (v2 - v1))) "loops" (.arr loops2)) =
                    jLookup "between_second_bbt" lfs := by
                  rw [jLookup_setKey_ne _ _ _ _ (by decide),
                    jLookup_setKey_ne _ _ _ _ (by decide)]
                have eg1 : getDefStr
                    (setKey (setKey lfs "between" (.num (v2 - v1))) "loops" (.arr loops2))
                    "between_first_bbt" = .ok s1 := by
                  unfold getDefStr at hg1 ⊢
                  rw [eb1]; exact hg1
                have eg2 : getDefStr
                    (setKey (setKey lfs "between" (.num (v2 - v1))) "loops" (.arr loops2))
                    "between_second_bbt" = .ok s2 := by
                  unfold getDefStr at hg2 ⊢
                  rw [eb2]; exact hg2
                have em : mapME (processLoop bpm ppq ts) loops2 = .ok loops2 :=
                  mapME_idem (processLoop_idem bpm ppq ts) loops loops2 hm
                simp [processMapping, e1, etr, eg1, hv1, eg2, hv2, ebet, elp', em, einner,
                  setKey_setKey_same]
            | null => simp [processMapping, hld, htr, hg1, hv1, hg2, hv2, hlp] at h
            | num q => simp [processMapping, hld, htr, hg1, hv1, hg2, hv2, hlp] at h
            | str s => simp [processMapping, hld, htr, hg1, hv1, hg2, hv2, hlp] at h
            | obj fs2 => simp [processMapping, hld, htr, hg1, hv1, hg2, hv2, hlp] at h
        | null => simp [J.truthy] at htr
        | num q =>
          simp only [processMapping, hld, htr, if_true] at h
          cases h
        | str s =>
          simp only [processMapping, hld, htr, if_true] at h
          cases h
        | arr xs =>
          simp only [processMapping, hld, htr, if_true] at h
          cases h
      · simp only [Bool.not_eq_true] at htr
        simp only [processMapping, hld, htr, Bool.false_eq_true, if_false,
          Except.ok.injEq] at h
        subst h
        simp [processMapping, hld, htr]
  | null => simp [processMapping] at h
  | num q => simp [processMapping] at h
  | str s => simp [processMapping] at h
  | arr xs => simp [processMapping] at h

/-- C9: normalization is idempotent.  If one pass succeeds, a second pass
on its output succeeds and returns the output unchanged: `between` and
every loop `start` are recomputed from the unchanged bbt fields and
overwrite the previously computed (identical) values. -/
theorem C9_idempotent (doc doc' : J) (h : do_mappings doc = .ok doc') :
    do_mappings doc' = .ok doc' := by
  cases doc with
  | obj tfs =>
    cases h1 : jLookup "tracks_data" tfs with
    | none => simp [do_mappings, h1] at h
    | some td =>
      cases td with
      | obj dfs =>
        cases h2 : jLookup "bpm" dfs with
        | none => simp [do_mappings, h1, h2] at h
        | some bv =>
        cases bv with
        | num bpm =>
          cases h3 : jLookup "ppq" dfs with
          | none => simp [do_mappings, h1, h2, h3] at h
          | some pv =>
          cases pv with
          | num ppq =>
            cases h4 : jLookup "time_signature" dfs with
            | none => simp [do_mappings, h1, h2, h3, h4] at h
            | some tv =>
            cases tv with
            | str ts =>
              cases h5 : jLookup "mappings" dfs with
              | none => simp [do_mappings, h1, h2, h3, h4, h5] at h
              | some mv =>
              cases mv with
              | arr mappings =>
                cases hm : mapME (processMapping bpm ppq ts) mappings with
                | error e => simp [do_mappings, h1, h2, h3, h4, h5, hm] at h
                | ok mappings2 =>
                  simp only [do_mappings, h1, h2, h3, h4, h5, hm, Except.ok.injEq] at h
                  subst h
                  have e1 : jLookup "tracks_data" (setKey tfs "tracks_data"
                      (.obj (setKey dfs "mappings" (.arr mappings2)))) =
                      some (.obj (setKey dfs "mappings" (.arr mappings2))) :=
                    jLookup_setKey_self _ _ _
                  have e2 : jLookup "bpm" (setKey dfs "mappings" (.arr mappings2)) =
                      some (.num bpm) := by
                    rw [jLookup_setKey_ne _ _ _ _ (by decide)]; exact h2
                  have e3 : jLookup "ppq" (setKey dfs "mappings" (.arr mappings2)) =
                      some (.num ppq) := by
                    rw [jLookup_setKey_ne _ _ _ _ (by decide)]; exact h3
                  have e4 : jLookup "time_signature" (setKey dfs "mappings" (.arr mappings2)) =
                      some (.str ts) := by
                    rw [jLookup_setKey_ne _ _ _ _ (by decide)]; exact h4
                  have e5 : jLookup "mappings" (setKey dfs "mappings" (.arr mappings2)) =
                      some (.arr mappings2) := jLookup_setKey_self _ _ _
                  have em : mapME (processMapping bpm ppq ts) mappings2 = .ok mappings2 :=
                    mapME_idem (processMapping_idem bpm ppq ts) mappings mappings2 hm
                  simp [do_mappings, e1, e2, e3, e4, e5, em, setKey_setKey_same]
              | null => simp [do_mappings, h1, h2, h3, h4, h5] at h
              | num q => simp [do_mappings, h1, h2, h3, h4, h5] at h
              | str s => simp [do_mappings, h1, h2, h3, h4, h5] at h
              | obj fs => simp [do_mappings, h1, h2, h3, h4, h5] at h
            | null => simp [do_mappings, h1, h2, h3, h4] at h
            | num q => simp [do_mappings, h1, h2, h3, h4] at h
            | arr xs => simp [do_mappings, h1, h2, h3, h4] at h
            | obj fs => simp [do_mappings, h1, h2, h3, h4] at h
          | null => simp [do_mappings, h1, h2, h3] at h
          | str s => simp [do_mappings, h1, h2, h3] at h
          | arr xs => simp [do_mappings, h1, h2, h3] at h
          | obj fs => simp [do_mappings, h1, h2, h3] at h
        | null => simp [do_mappings, h1, h2] at h
        | str s => simp [do_mappings, h1, h2] at h
        | arr xs => simp [do_mappings, h1, h2] at h
        | obj fs => simp [do_mappings, h1, h2] at h
      | null => simp [do_mappings, h1] at h
      | num q => simp [do_mappings, h1] at h
      | str s => simp [do_mappings, h1] at h
      | arr xs => simp [do_mappings, h1] at h
  | null => simp [do_mappings] at h
  | num q => simp [do_mappings] at h
  | str s => simp [do_mappings] at h
  | arr xs => simp [do_mappings] at h

/-- C10: a mapping whose `loops_data` key is present but falsy (e.g. an
empty dict) is treated exactly like a mapping without the key: the `if
loops_data:` guard skips it, so no `between` is written, no loops are
visited, no failure occurs, and the mapping is returned unchanged. -/
theorem C10_falsy_loops_data (bpm ppq : Rat) (ts : List Char) (mfs : List (String × J))
    (v : J) (h1 : jLookup "loops_data" mfs = some v) (h2 : v.truthy = false) :
    processMapping bpm ppq ts (.obj mfs) = .ok (.obj mfs) := by
  simp [processMapping, h1, h2]

theorem C10_witness :
    processMapping 120 96 "4:4".data (.obj [("loops_data", .obj [])]) =
      .ok (.obj [("loops_data", .obj [])]) :=
  C10_falsy_loops_data 120 96 "4:4".data [("loops_data", .obj [])] (.obj []) rfl rfl

theorem C2_witness :
    do_mappings (.obj [("instruments", .obj []),
      ("tracks_data", .obj [("bpm", .num 120), ("ppq", .num 96),
        ("time_signature", .str "4:4".data),
        ("mappings", .arr [.obj [("name", .str "intro".data)],
          .obj [("loops_data", .obj [("between_first_bbt", .str "1:01:00".data),
            ("between_second_bbt", .str "2:01:00".data),
            ("loops", .arr [.obj [("start_bbt", .str "1:02:00".data),
              ("vol", .num 3)]])])]])])]) =
      .ok (.obj (setKey [("instruments", .obj []),
        ("tracks_data", .obj [("bpm", .num 120), ("ppq", .num 96),
          ("time_signature", .str "4:4".data),
          ("mappings", .arr [.obj [("name", .str "intro".data)],
            .obj [("loops_data", .obj [("between_first_bbt", .str "1:01:00".data),
              ("between_second_bbt", .str "2:01:00".data),
              ("loops", .arr [.obj [("start_bbt", .str "1:02:00".data),
                ("vol", .num 3)]])])]])])] "tracks_data"
        (.obj (setKey [("bpm", .num 120), ("ppq", .num 96),
          ("time_signature", .str "4:4".data),
          ("mappings", .arr [.obj [("name", .str "intro".data)],
            .obj [("loops_data", .obj [("between_first_bbt", .str "1:01:00".data),
              ("between_second_bbt", .str "2:01:00".data),
              ("loops", .arr [.obj [("start_bbt", .str "1:02:00".data),
                ("vol", .num 3)]])])]])] "mappings"
          (.arr ([.obj [("name", .str "intro".data)],
            .obj [("loops_data", .obj [("between_first_bbt", .str "1:01:00".data),
              ("between_second_bbt", .str "2:01:00".data),
              ("loops", .arr [.obj [("start_bbt", .str "1:02:00".data),
                ("vol", .num 3)]])])]].map
            (claimMappingRewrite 120 96 "4:4".data))))))) :=
  (C2_mapping_normalization
    [("instruments", .obj []),
      ("tracks_data", .obj [("bpm", .num 120), ("ppq", .num 96),
        ("time_signature", .str "4:4".data),
        ("mappings", .arr [.obj [("name", .str "intro".data)],
          .obj [("loops_data", .obj [("between_first_bbt", .str "1:01:00".data),
            ("between_second_bbt", .str "2:01:00".data),
            ("loops", .arr [.obj [("start_bbt", .str "1:02:00".data),
              ("vol", .num 3)]])])]])])]
    [("bpm", .num 120), ("ppq", .num 96), ("time_signature", .str "4:4".data),
      ("mappings", .arr [.obj [("name", .str "intro".data)],
        .obj [("loops_data", .obj [("between_first_bbt", .str "1:01:00".data),
          ("between_second_bbt", .str "2:01:00".data),
          ("loops", .arr [.obj [("start_bbt", .str "1:02:00".data),
            ("vol", .num 3)]])])]])]
    120 96 "4:4".data
    [.obj [("name", .str "intro".data)],
      .obj [("loops_data", .obj [("between_first_bbt", .str "1:01:00".data),
        ("between_second_bbt", .str "2:01:00".data),
        ("loops", .arr [.obj [("start_bbt", .str "1:02:00".data),
          ("vol", .num 3)]])])]]
    rfl rfl rfl rfl rfl (by decide)).1

theorem C9_witness :
    do_mappings (.obj [("tracks_data", .obj [("bpm", .num 120), ("ppq", .num 96),
      ("time_signature", .str "4:4".data),
      ("mappings", .arr [.obj [("loops_data", .obj [
        ("between_second_bbt", .str "2:01:00".data),
        ("loops", .arr [.obj [("start_bbt", .str "1:02:00".data)]])])]])])]) =
      .ok (.obj [("tracks_data", .obj [("bpm", .num 120), ("ppq", .num 96),
        ("time_signature", .str "4:4".data),
        ("mappings", .arr [.obj [("loops_data", .obj [
          ("between_second_bbt", .str "2:01:00".data),
          ("loops", .arr [.obj [("start_bbt", .str "1:02:00".data),
            ("start", .num (1/2))]]),
          ("between", .num 2)])]])])]) ∧
    do_mappings (.obj [("tracks_data", .obj [("bpm", .num 120), ("ppq", .num 96),
      ("time_signature", .str "4:4".data),
      ("mappings", .arr [.obj [("loops_data", .obj [
        ("between_second_bbt", .str "2:01:00".data),
        ("loops", .arr [.obj [("start_bbt", .str "1:02:00".data),
          ("start", .num (1/2))]]),
        ("between", .num 2)])]])])]) =
      .ok (.obj [("tracks_data", .obj [("bpm", .num 120), ("ppq", .num 96),
        ("time_signature", .str "4:4".data),
        ("mappings", .arr [.obj [("loops_data", .obj [
          ("between_second_bbt", .str "2:01:00".data),
          ("loops", .arr [.obj [("start_bbt", .str "1:02:00".data),
            ("start", .num (1/2))]]),
          ("between", .num 2)])]])])]) := by
  have h : do_mappings (.obj [("tracks_data", .obj [("bpm", .num 120), ("ppq", .num 96),
      ("time_signature", .str "4:4".data),
      ("mappings", .arr [.obj [("loops_data", .obj [
        ("between_second_bbt", .str "2:01:00".data),
        ("loops", .arr [.obj [("start_bbt", .str "1:02:00".data)]])])]])])]) =
      .ok (.obj [("tracks_data", .obj [("bpm", .num 120), ("ppq", .num 96),
        ("time_signature", .str "4:4".data),
        ("mappings", .arr [.obj [("loops_data", .obj [
          ("between_second_bbt", .str "2:01:00".data),
          ("loops", .arr [.obj [("start_bbt", .str "1:02:00".data),
            ("start", .num (1/2))]]),
          ("between", .num 2)])]])])]) := by
    simp [do_mappings, jLookup, processMapping, getDefStr, defaultBBT, mapME, processLoop,
      bbt_to_second, floatAt, pySplit, pySplitAux, parseFloat, takeDigits, digit?, digitsVal,
      setKey, J.truthy]
    norm_num
  exact ⟨h, C9_idempotent _ _ h⟩
